import Mathlib

/-!
Verification development for the `webtrc-voice-chat` SFU server (Go).

The embedding translates, from the source:
  * the signaling-event decoding and dispatch (`User.HandleEvent`,
    `User.HandleOffer`, `readPump`, `writePump` in `user.go`),
  * the room coordinator (`Room.run`) and the room registry
    (`Rooms.Get` / `Rooms.AddRoom` / `Rooms.RemoveRoom` /
    `Rooms.GetOrCreate`, in the room files),
  * the inbound-track callback registered in `serveWs` (`user.go`).

External libraries (gorilla/websocket, pion/webrtc, encoding/json,
bytes) are modelled at their interface: JSON decoding is given by a
small executable JSON reader with Go's `Unmarshal` conventions for the
`Event` struct (unknown fields ignored, missing fields zero-valued,
`null` into a pointer leaves it nil), and the media-plane operations
are recorded as an action trace.
-/

/-- ASCII space characters recognised by `bytes.TrimSpace` /
`unicode.IsSpace` on the frames this server sees. -/
def isSpaceChar (c : Char) : Bool :=
  c = ' ' || c = '\n' || c = '\t' || c = '\r' || c = Char.ofNat 11 || c = Char.ofNat 12

/-- `bytes.Replace(message, newline, space, -1)`: every newline byte
becomes a space byte. -/
def replaceNewlines : List Char → List Char
  | [] => []
  | c :: cs => (if c = '\n' then ' ' else c) :: replaceNewlines cs

/-- Drop leading space characters. -/
def trimLeftChars : List Char → List Char
  | [] => []
  | c :: cs => if isSpaceChar c then trimLeftChars cs else c :: cs

/-- `bytes.TrimSpace`: drop leading and trailing space characters. -/
def trimSpaceChars (s : List Char) : List Char :=
  trimLeftChars ((trimLeftChars s.reverse).reverse)

/-- The reader's frame normalization (user.go:72):
`bytes.TrimSpace(bytes.Replace(message, newline, space, -1))`. -/
def normalizeFrame (s : String) : String :=
  String.mk (trimSpaceChars (replaceNewlines s.data))

/-- JSON values, as produced by the wire decoder. Number lexemes are
kept uninterpreted (no Event field is numeric). -/
inductive JValue : Type
  | null : JValue
  | bool (b : Bool) : JValue
  | num (lexeme : String) : JValue
  | str (s : String) : JValue
  | arr (items : List JValue) : JValue
  | obj (fields : List (String × JValue)) : JValue

/-- The `{` character, written by code point. -/
def lbraceChar : Char := Char.ofNat 123

/-- The `}` character, written by code point. -/
def rbraceChar : Char := Char.ofNat 125

/-- The `"` character. -/
def quoteChar : Char := Char.ofNat 34

/-- JSON structural whitespace. -/
def isJsonWs (c : Char) : Bool :=
  c = ' ' || c = '\n' || c = '\t' || c = '\r'

/-- Skip JSON structural whitespace. -/
def skipWs : List Char → List Char
  | [] => []
  | c :: cs => if isJsonWs c then skipWs cs else c :: cs

/-- Parse the body of a JSON string after the opening quote; returns
the decoded content and the rest of the input. -/
def parseStringBody : List Char → Option (List Char × List Char)
  | [] => none
  | c :: cs =>
    if c = quoteChar then some ([], cs)
    else if c = '\\' then
      match cs with
      | [] => none
      | e :: cs' =>
        let dec : Option Char :=
          if e = quoteChar then some quoteChar
          else if e = '\\' then some '\\'
          else if e = '/' then some '/'
          else if e = 'n' then some '\n'
          else if e = 't' then some '\t'
          else if e = 'r' then some '\r'
          else none
        match dec with
        | none => none
        | some d =>
          match parseStringBody cs' with
          | none => none
          | some (s, r) => some (d :: s, r)
    else
      match parseStringBody cs with
      | none => none
      | some (s, r) => some (c :: s, r)

/-- Take a maximal run of decimal digits. -/
def takeDigits : List Char → (List Char × List Char)
  | [] => ([], [])
  | c :: cs =>
    if c.isDigit then
      let (d, r) := takeDigits cs
      (c :: d, r)
    else ([], c :: cs)

/-- Parse a JSON number lexeme (sign, integer part, optional fraction
and exponent); returns the lexeme and the rest. -/
def parseNumber (s : List Char) : Option (List Char × List Char) :=
  let (neg, s1) :=
    match s with
    | c :: cs => if c = '-' then ([c], cs) else ([], c :: cs)
    | [] => ([], [])
  let (intPart, s2) := takeDigits s1
  if intPart.isEmpty then none
  else
    let (fracPart, s3) :=
      match s2 with
      | c :: cs =>
        if c = '.' then
          let (d, r) := takeDigits cs
          if d.isEmpty then ([], c :: cs) else ([c] ++ d, r)
        else ([], c :: cs)
      | [] => ([], [])
    let (expPart, s4) :=
      match s3 with
      | c :: cs =>
        if c = 'e' || c = 'E' then
          let (sgn, cs1) :=
            match cs with
            | d :: ds => if d = '+' || d = '-' then ([d], ds) else ([], d :: ds)
            | [] => ([], [])
          let (d, r) := takeDigits cs1
          if d.isEmpty then ([], c :: cs) else ([c] ++ sgn ++ d, r)
        else ([], c :: cs)
      | [] => ([], [])
    some (neg ++ intPart ++ fracPart ++ expPart, s4)

mutual

/-- Parse one JSON value (fuel-indexed to stay structurally recursive). -/
def parseVal : Nat → List Char → Option (JValue × List Char)
  | 0, _ => none
  | fuel + 1, s =>
    match skipWs s with
    | [] => none
    | 'n' :: 'u' :: 'l' :: 'l' :: rest => some (.null, rest)
    | 't' :: 'r' :: 'u' :: 'e' :: rest => some (.bool true, rest)
    | 'f' :: 'a' :: 'l' :: 's' :: 'e' :: rest => some (.bool false, rest)
    | c :: cs =>
      if c = quoteChar then
        match parseStringBody cs with
        | none => none
        | some (str, r) => some (.str (String.mk str), r)
      else if c = lbraceChar then
        match parseObjFields fuel true cs with
        | none => none
        | some (fields, r) => some (.obj fields, r)
      else if c = '[' then
        match parseArrItems fuel true cs with
        | none => none
        | some (items, r) => some (.arr items, r)
      else if c = '-' || c.isDigit then
        match parseNumber (c :: cs) with
        | none => none
        | some (lex, r) => some (.num (String.mk lex), r)
      else none

/-- Parse the members of a JSON object after `{` (or after a `,` when
`allowClose` is false, in which case a closing brace is not accepted). -/
def parseObjFields : Nat → Bool → List Char → Option (List (String × JValue) × List Char)
  | 0, _, _ => none
  | fuel + 1, allowClose, s =>
    match skipWs s with
    | [] => none
    | c :: cs =>
      if c = rbraceChar && allowClose then some ([], cs)
      else if c = quoteChar then
        match parseStringBody cs with
        | none => none
        | some (key, r1) =>
          match skipWs r1 with
          | ':' :: r2 =>
            match parseVal fuel r2 with
            | none => none
            | some (v, r3) =>
              match skipWs r3 with
              | sep :: r4 =>
                if sep = ',' then
                  match parseObjFields fuel false r4 with
                  | none => none
                  | some (fields, r5) => some ((String.mk key, v) :: fields, r5)
                else if sep = rbraceChar then some ([(String.mk key, v)], r4)
                else none
              | [] => none
          | _ => none
      else none

/-- Parse the items of a JSON array after `[` (or after a `,` when
`allowClose` is false). -/
def parseArrItems : Nat → Bool → List Char → Option (List JValue × List Char)
  | 0, _, _ => none
  | fuel + 1, allowClose, s =>
    match skipWs s with
    | [] => none
    | c :: cs =>
      if c = ']' && allowClose then some ([], cs)
      else
        match parseVal fuel (c :: cs) with
        | none => none
        | some (v, r1) =>
          match skipWs r1 with
          | sep :: r2 =>
            if sep = ',' then
              match parseArrItems fuel false r2 with
              | none => none
              | some (items, r3) => some (v :: items, r3)
            else if sep = ']' then some ([v], r2)
            else none
          | [] => none

end

/-- Parse a complete JSON document (trailing whitespace only), as
`encoding/json.Unmarshal` requires. -/
def jsonParse (s : String) : Option JValue :=
  match parseVal (s.data.length + 1) s.data with
  | none => none
  | some (v, rest) =>
    match skipWs rest with
    | [] => some v
    | _ :: _ => none


/-- A Go `(value, error)` return, with the error value kept opaque.
`.err` is a non-nil error. -/
inductive GoResult (α : Type) : Type
  | ok (val : α) : GoResult α
  | err : GoResult α
deriving DecidableEq, Repr

/-- A session description (pion `webrtc.SessionDescription`): a type
tag and the SDP text. The type tag is kept as its JSON string. -/
structure SessionDescription where
  sdpType : String := ""
  sdp : String := ""
deriving DecidableEq, Repr

/-- `Event` from user.go: the signaling message. `Type` is a Lean
keyword, so the Go field `Type` is called `etype` here. `Offer` and
`Answer` are pointer fields (`none` = nil). -/
structure Event where
  etype : String := ""
  Offer : Option SessionDescription := none
  Answer : Option SessionDescription := none
  Desc : String := ""
deriving DecidableEq, Repr

/-- Field lookup in a decoded JSON object. `encoding/json` keeps the
last occurrence of a duplicated key. -/
def jLookup (fields : List (String × JValue)) (k : String) : Option JValue :=
  (fields.reverse.find? (fun p => decide (p.1 = k))).map (·.2)

/-- Decode a string-typed struct field, Go style: missing or `null`
leaves the zero value; a non-string value is a type error. -/
def decodeStringField (fields : List (String × JValue)) (k : String) :
    GoResult String :=
  match jLookup fields k with
  | none => .ok ""
  | some .null => .ok ""
  | some (.str s) => .ok s
  | some _ => .err

/-- Decode a JSON value into `*webrtc.SessionDescription`: `null`
leaves the pointer nil, an object fills the two fields, anything else
is a type error. -/
def sdOfJValue : JValue → GoResult (Option SessionDescription)
  | .null => .ok none
  | .obj fields =>
    match decodeStringField fields "type", decodeStringField fields "sdp" with
    | .ok t, .ok s => .ok (some { sdpType := t, sdp := s })
    | _, _ => .err
  | _ => .err

/-- Decode an optional session-description field. -/
def decodeSDField (fields : List (String × JValue)) (k : String) :
    GoResult (Option SessionDescription) :=
  match jLookup fields k with
  | none => .ok none
  | some v => sdOfJValue v

/-- Decode a JSON value into `*Event` (the target of
`json.Unmarshal(eventRaw, &event)`): `null` leaves the pointer nil, an
object fills the struct (unknown keys ignored, missing keys
zero-valued), anything else is a type error. -/
def eventOfJValue : JValue → GoResult (Option Event)
  | .null => .ok none
  | .obj fields =>
    match decodeStringField fields "type", decodeSDField fields "offer",
          decodeSDField fields "answer", decodeStringField fields "desc" with
    | .ok t, .ok o, .ok a, .ok d =>
      .ok (some { etype := t, Offer := o, Answer := a, Desc := d })
    | _, _, _, _ => .err
  | _ => .err

/-- `json.Unmarshal(eventRaw, &event)` with `event : *Event`:
`.err` is a returned decode error, `.ok none` is a successful decode
that leaves the pointer nil (input `null`). -/
def unmarshalEvent (raw : String) : GoResult (Option Event) :=
  match jsonParse raw with
  | none => .err
  | some v => eventOfJValue v


/-- A media track as created by pion `NewTrack(payloadType, ssrc, id,
label)`; `track.SSRC()` returns the `ssrc` it was created with. -/
structure Track where
  payloadType : Nat
  ssrc : Nat
  trackId : String
  label : String
deriving DecidableEq, Repr

/-- `webrtc.DefaultPayloadTypeOpus` (pion v2). -/
def DefaultPayloadTypeOpus : Nat := 111

/-- pion `NewTrack`. -/
def NewTrack (payloadType ssrc : Nat) (trackId label : String) : Track :=
  { payloadType := payloadType, ssrc := ssrc, trackId := trackId, label := label }

/-- An entry of the media engine's codec table (`RTPCodec`): name and
payload type (a uint8). -/
structure Codec where
  Name : String
  PayloadType : Nat
deriving DecidableEq, Repr

/-- The OPUS payload-type scan of `User.HandleOffer` (user.go:235-241):
`payloadType` starts at the uint8 zero value and is set from the first
codec named "OPUS", after which the loop breaks. -/
def findOpusPayloadType : List Codec → Nat
  | [] => 0
  | c :: cs => if c.Name = "OPUS" then c.PayloadType else findOpusPayloadType cs

/-- The media-plane operations a handler performs on the peer
connection (and the renegotiation messages it emits), recorded as a
trace. -/
inductive PCAction : Type
  | newTrack (t : Track) : PCAction
  | addTrack (t : Track) : PCAction
  | setRemoteDescription (sd : SessionDescription) : PCAction
  | createAnswer : PCAction
  | setLocalDescription (sd : SessionDescription) : PCAction
deriving DecidableEq, Repr

/-- The error values `HandleEvent`/`HandleOffer` can return to the
reader. -/
inductive HandleErr : Type
  | unmarshalErr : HandleErr
  | noPeerConnection : HandleErr
  | unsupportedCodec : HandleErr
deriving DecidableEq, Repr

/-- `fmt.Sprint(err)` for the errors above. The text of a JSON decode
error is library-defined; the other two are the literals from user.go. -/
def errMessage : HandleErr → String
  | .unmarshalErr => "json unmarshal error"
  | .noPeerConnection => "user has no peer connection"
  | .unsupportedCodec => "remote peer does not support opus codec"

/-- The observable outcome of one `HandleEvent` call: whether it
dereferenced a nil `*Event`, the error it returned, the events it sent
itself via `SendJSON`/`SendErr`, and the peer-connection operations it
performed. -/
structure HandleResult where
  panicked : Bool := false
  retErr : Option HandleErr := none
  sent : List Event := []
  pcActions : List PCAction := []
deriving DecidableEq, Repr

/-- The state of a `User` (user.go) visible to event handling: the
peer connection (`none` = nil pointer) and the `Tracks` map. -/
structure UserModel where
  peerConnection : Option Nat := none
  tracks : List (Nat × Track) := []
deriving DecidableEq, Repr

/-- `User.HandleOffer` (user.go:229-274). `getAudioCodecs` stands for
the library pipeline `PopulateFromSDP` + `GetCodecsByKind(Audio)` on
the offer's SDP; `randSSRC` is the `rand.Uint32()` draw; `answer` is
the description returned by `CreateAnswer`. Library calls on the
success path are modelled as succeeding (in the source, `NewTrack` or
`AddTrack` failure panics and the later calls return their error). -/
def HandleOffer (getAudioCodecs : String → List Codec) (randSSRC : Nat)
    (answer : SessionDescription) (offer : SessionDescription) : HandleResult :=
  let payloadType := findOpusPayloadType (getAudioCodecs offer.sdp)
  if payloadType = 0 then
    { retErr := some .unsupportedCodec }
  else
    let track := NewTrack DefaultPayloadTypeOpus randSSRC "audio" "pion"
    { pcActions := [.newTrack track, .addTrack track,
                    .setRemoteDescription offer, .createAnswer,
                    .setLocalDescription answer]
    , sent := [{ etype := "answer", Answer := some answer }] }

/-- The dispatch of `User.HandleEvent` after `json.Unmarshal`
(user.go:161-177). A nil `*Event` (`none`) reaches `event.Type` and
dereferences the nil pointer. In the answer branch the return value of
`SetRemoteDescription` is discarded by the source, so the call is
recorded and no error is returned. -/
def HandleEventDecoded (getAudioCodecs : String → List Codec) (randSSRC : Nat)
    (answer : SessionDescription) (u : UserModel) :
    Option Event → HandleResult
  | none => { panicked := true }
  | some e =>
    if e.etype = "offer" then
      match e.Offer with
      | some offer => HandleOffer getAudioCodecs randSSRC answer offer
      | none => { sent := [{ etype := "error", Desc := "not implemented" }] }
    else if e.etype = "answer" then
      match e.Answer with
      | some ans =>
        match u.peerConnection with
        | none => { retErr := some .noPeerConnection }
        | some _ => { pcActions := [.setRemoteDescription ans] }
      | none => { sent := [{ etype := "error", Desc := "not implemented" }] }
    else { sent := [{ etype := "error", Desc := "not implemented" }] }

/-- `User.HandleEvent` (user.go:154-177): unmarshal the raw frame,
then dispatch. -/
def HandleEvent (getAudioCodecs : String → List Codec) (randSSRC : Nat)
    (answer : SessionDescription) (u : UserModel) (eventRaw : String) :
    HandleResult :=
  match unmarshalEvent eventRaw with
  | .err => { retErr := some .unmarshalErr }
  | .ok ev => HandleEventDecoded getAudioCodecs randSSRC answer u ev

/-- What the client can observe from one handled frame: the events the
handler sent, followed by the `SendErr` the reader's task performs when
the handler returned an error (user.go:73-79). -/
def clientVisible (hr : HandleResult) : List Event :=
  hr.sent ++
    (match hr.retErr with
     | some e => [{ etype := "error", Desc := errMessage e }]
     | none => [])

/-- One input to the reader loop: either a frame delivered by
`ReadMessage`, or a read error (close, oversized frame, deadline). -/
inductive ReadInput : Type
  | frame (payload : String) : ReadInput
  | readErr : ReadInput
deriving DecidableEq, Repr

/-- The outcome of one `readPump` iteration (user.go:62-80): whether
the loop breaks, and the result of the handler task spawned for the
normalized frame (`none` when no handler was spawned). -/
structure ReaderStep where
  exits : Bool
  handled : Option HandleResult
deriving DecidableEq, Repr

/-- One iteration of `readPump`: a read error breaks the loop; a frame
is whitespace-normalized and handed to `HandleEvent` on a fresh task,
after which the loop continues regardless of the handler's outcome. -/
def readPumpStep (getAudioCodecs : String → List Codec) (randSSRC : Nat)
    (answer : SessionDescription) (u : UserModel) : ReadInput → ReaderStep
  | .readErr => { exits := true, handled := none }
  | .frame payload =>
    { exits := false
    , handled := some (HandleEvent getAudioCodecs randSSRC answer u
        (normalizeFrame payload)) }

/-- The `User` constructed by `serveWs` (user.go:306-323): its peer
connection is created with `api.NewPeerConnection` before the reader
starts (the construction error is discarded by the source; with the
default configuration construction succeeds), and its `Tracks` map is
empty. -/
def serveWsUser (pc : Nat) : UserModel :=
  { peerConnection := some pc, tracks := [] }

/-- Go map assignment `m[k] = v` on an association list: replace the
binding when the key is present, otherwise add it. -/
def goMapInsert {α : Type} (m : List (Nat × α)) (k : Nat) (v : α) :
    List (Nat × α) :=
  if m.any (fun p => decide (p.1 = k)) then
    m.map (fun p => if p.1 = k then (k, v) else p)
  else (k, v) :: m

/-- Go map read `m[k]` on an association list. -/
def goMapLookup {α : Type} (m : List (Nat × α)) (k : Nat) : Option α :=
  (m.find? (fun p => decide (p.1 = k))).map (·.2)

/-- The effects of the `OnTrack` callback registered in `serveWs`
(user.go:339-377), up to the start of the forwarding loop: the tracks
allocated with `NewTrack`, the updated `user.Tracks` map, and the
other room users on which `AddTrack` renegotiation is invoked. (The
PLI ticker and the RTP forwarding loop are concurrent tasks outside
this state. `NewTrack` failure panics in the source and is modelled
as succeeding.) -/
structure OnTrackResult where
  allocated : List Track
  tracks : List (Nat × Track)
  renegotiated : List Nat
deriving DecidableEq, Repr

/-- The `OnTrack` callback body: one `NewTrack(DefaultPayloadTypeOpus,
remoteTrack.SSRC(), "audio", "pion")`, then
`user.Tracks[track.SSRC()] = track`, then `AddTrack` on every other
room user. -/
def onTrack (u : UserModel) (remoteSSRC : Nat) (otherUsers : List Nat) :
    OnTrackResult :=
  let track := NewTrack DefaultPayloadTypeOpus remoteSSRC "audio" "pion"
  { allocated := [track]
  , tracks := goMapInsert u.tracks track.ssrc track
  , renegotiated := otherUsers }

/-- One input to the `writePump` loop (user.go:94-126): a dequeued
message together with the messages found queued behind it, the queue
observed closed, or a ping tick. Frames are byte strings. -/
inductive WriterInput : Type
  | msg (message : List Char) (queued : List (List Char)) : WriterInput
  | queueClosed : WriterInput
  | tick : WriterInput
deriving DecidableEq, Repr

/-- One transport-level write performed by the writer. -/
inductive TransportOut : Type
  | text (payload : List Char) : TransportOut
  | ping : TransportOut
  | closeFrame : TransportOut
deriving DecidableEq, Repr

/-- The chunks the writer's inner loop appends for the queued
messages: `w.Write(newline); w.Write(<-u.send)` per message
(user.go:111-115). -/
def queuedChunks : List (List Char) → List (List Char)
  | [] => []
  | q :: qs => ['\n'] :: q :: queuedChunks qs

/-- One iteration of `writePump`: a dequeued message is written as one
text message built from the first frame followed by the newline-prefixed
queued frames; a closed queue causes a close frame and exit; a tick
causes a ping. Transport write errors (which also exit the loop) are
modelled as absent. -/
def writePumpStep : WriterInput → TransportOut × Bool
  | .msg message queued =>
    (.text (List.flatten (message :: queuedChunks queued)), false)
  | .queueClosed => (.closeFrame, true)
  | .tick => (.ping, false)

/-- One message consumed by the `Room.run` select (part_001:62-83).
Users are identified by handles (Go `*User` pointers). A `broadcast`
carries the set of members whose buffered send would block (channel
full), which the default branch closes and removes. -/
inductive RoomMsg : Type
  | join (u : Nat) : RoomMsg
  | leave (u : Nat) : RoomMsg
  | broadcast (full : List Nat) : RoomMsg
deriving DecidableEq, Repr

/-- The coordinator's state: the `users` map (keys only; the value is
always `true`) and the log of `close(user.send)` calls performed. -/
structure RoomState where
  users : List Nat := []
  closes : List Nat := []
deriving DecidableEq, Repr

/-- One iteration of `Room.run` (part_001:62-83): `join` inserts into
the map; `leave` deletes and closes the channel only when the user is
a member; `broadcast` delivers to each member, closing and deleting
the members whose channel is full. -/
def Room.runStep (s : RoomState) : RoomMsg → RoomState
  | .join u => if u ∈ s.users then s else { s with users := u :: s.users }
  | .leave u =>
    if u ∈ s.users then
      { users := s.users.filter (fun v => decide (¬ v = u))
      , closes := s.closes ++ [u] }
    else s
  | .broadcast full =>
    { users := s.users.filter (fun v => decide (v ∉ full))
    , closes := s.closes ++ s.users.filter (fun v => decide (v ∈ full)) }

/-- `Room.run` over a whole message sequence, from the state
`RoomNew()` leaves (empty member set, nothing closed). -/
def Room.runTrace (msgs : List RoomMsg) : RoomState :=
  msgs.foldl Room.runStep {}

/-- Number of `join u` messages in a trace. -/
def joinCount (msgs : List RoomMsg) (u : Nat) : Nat :=
  (msgs.filter (fun m => decide (m = .join u))).length

/-- The `Rooms` registry: `rooms map[string]*Room` modelled as an
association list from room id to a room handle. -/
abbrev RoomsMap : Type := List (String × Nat)

/-- `Rooms.Get` (part_001:93-98): `none` is the `errNotFound` return. -/
def Rooms.Get (r : RoomsMap) (roomID : String) : Option Nat :=
  (r.find? (fun p => decide (p.1 = roomID))).map (·.2)

/-- `Rooms.AddRoom` (part_001:114-120): error when the id exists,
otherwise insert. -/
def Rooms.AddRoom (r : RoomsMap) (roomID : String) (room : Nat) :
    RoomsMap × Option String :=
  if r.any (fun p => decide (p.1 = roomID)) then
    (r, some ("room with id " ++ roomID ++ " already exists"))
  else ((roomID, room) :: r, none)

/-- `Rooms.RemoveRoom` (part_001:123-129): `delete(r.rooms, roomID)`
when the id exists; both branches return a nil error. -/
def Rooms.RemoveRoom (r : RoomsMap) (roomID : String) :
    RoomsMap × Option String :=
  if r.any (fun p => decide (p.1 = roomID)) then
    (r.filter (fun p => decide (¬ p.1 = roomID)), none)
  else (r, none)

/-- The registry state for `GetOrCreate`: the map, a fresh-handle
counter standing for `RoomNew()` allocations, and the log of
coordinators started with `go room.run()`. -/
structure RegState where
  rooms : RoomsMap := []
  nextRoom : Nat := 0
  started : List Nat := []
deriving DecidableEq, Repr

/-- `Rooms.GetOrCreate` as in part_001:101-111: on a miss, `RoomNew()`,
`AddRoom` (whose error return is discarded), `go newRoom.run()`,
return the new room. -/
def Rooms.GetOrCreate (st : RegState) (roomID : String) : RegState × Nat :=
  match Rooms.Get st.rooms roomID with
  | some room => (st, room)
  | none =>
    let newRoom := st.nextRoom
    let add := Rooms.AddRoom st.rooms roomID newRoom
    ({ rooms := add.1
     , nextRoom := st.nextRoom + 1
     , started := st.started ++ [newRoom] }, newRoom)

/-- `Rooms.GetOrCreate` as in the iteration at part_002:87-95: on a
miss, `RoomNew()` and `go newRoom.run()`, but the new room is returned
without being added to the registry map. -/
def Rooms.GetOrCreateV2 (st : RegState) (roomID : String) : RegState × Nat :=
  match Rooms.Get st.rooms roomID with
  | some room => (st, room)
  | none =>
    let newRoom := st.nextRoom
    ({ st with nextRoom := st.nextRoom + 1
             , started := st.started ++ [newRoom] }, newRoom)

/-- The close-or-member weight of a user in a coordinator state. -/
def closeMem (s : RoomState) (u : Nat) : Nat :=
  s.closes.count u + s.users.count u

/-! Helper lemmas. -/

theorem findOpus_eq_zero (l : List Codec) (h : ∀ c ∈ l, c.Name ≠ "OPUS") :
    findOpusPayloadType l = 0 := by
  induction l with
  | nil => rfl
  | cons c cs ih =>
    have hc : ¬ c.Name = "OPUS" := h c (List.mem_cons_self c cs)
    rw [findOpusPayloadType, if_neg hc]
    exact ih (fun d hd => h d (List.mem_cons_of_mem _ hd))

theorem findOpus_eq_of_find? (l : List Codec) (c : Codec)
    (h : l.find? (fun d => decide (d.Name = "OPUS")) = some c) :
    findOpusPayloadType l = c.PayloadType := by
  induction l with
  | nil => simp at h
  | cons d ds ih =>
    by_cases hd : d.Name = "OPUS"
    · rw [List.find?_cons_of_pos _ (by simpa using hd)] at h
      cases h
      rw [findOpusPayloadType, if_pos hd]
    · rw [List.find?_cons_of_neg _ (by simpa using hd)] at h
      rw [findOpusPayloadType, if_neg hd]
      exact ih h

theorem find?_map_replace {α : Type} (m : List (Nat × α)) (k : Nat) (v : α)
    (h : m.any (fun p => decide (p.1 = k)) = true) :
    (m.map (fun p => if p.1 = k then (k, v) else p)).find?
      (fun p => decide (p.1 = k)) = some (k, v) := by
  induction m with
  | nil => simp at h
  | cons p ps ih =>
    by_cases hp : p.1 = k
    · simp [hp]
    · simp only [List.map_cons, if_neg hp]
      rw [List.find?_cons_of_neg _ (by simpa using hp)]
      simp only [List.any_cons, Bool.or_eq_true, decide_eq_true_eq] at h
      exact ih (by simpa using h.resolve_left hp)

theorem goMapLookup_insert {α : Type} (m : List (Nat × α)) (k : Nat) (v : α) :
    goMapLookup (goMapInsert m k v) k = some v := by
  unfold goMapInsert goMapLookup
  by_cases h : m.any (fun p => decide (p.1 = k)) = true
  · rw [if_pos h, find?_map_replace m k v h]
    rfl
  · rw [if_neg h]
    simp

theorem get_none_any_false (r : RoomsMap) (id : String)
    (h : Rooms.Get r id = none) :
    r.any (fun p => decide (p.1 = id)) = false := by
  unfold Rooms.Get at h
  have h2 : r.find? (fun p => decide (p.1 = id)) = none := by
    cases hf : r.find? (fun p => decide (p.1 = id)) with
    | none => rfl
    | some x => rw [hf] at h; simp at h
  rw [List.any_eq_false]
  intro x hx
  have := List.find?_eq_none.mp h2 x hx
  simpa using this

theorem get_filter_ne_none (r : RoomsMap) (id : String) :
    Rooms.Get (r.filter (fun p => decide (¬ p.1 = id))) id = none := by
  unfold Rooms.Get
  have h : (r.filter (fun p => decide (¬ p.1 = id))).find?
      (fun p => decide (p.1 = id)) = none := by
    rw [List.find?_eq_none]
    intro x hx
    have := (List.mem_filter.mp hx).2
    simpa using this
  rw [h]
  rfl

theorem any_filter_ne_false (r : RoomsMap) (id : String) :
    (r.filter (fun p => decide (¬ p.1 = id))).any
      (fun p => decide (p.1 = id)) = false := by
  rw [List.any_eq_false]
  intro x hx
  have := (List.mem_filter.mp hx).2
  simpa using this

theorem count_filter_eq (l : List Nat) (u : Nat) (p : Nat → Bool) :
    (l.filter p).count u = if p u then l.count u else 0 := by
  induction l with
  | nil => simp
  | cons a l ih =>
    by_cases hau : a = u
    · subst hau
      by_cases ha : p a
      · simp [List.filter_cons, ha, List.count_cons, ih]
      · simp [List.filter_cons, ha, List.count_cons, ih]
    · by_cases ha : p a
      · simp [List.filter_cons, ha, List.count_cons, hau, ih]
      · simp [List.filter_cons, ha, List.count_cons, hau, ih]

theorem runStep_closeMem (s : RoomState) (m : RoomMsg) (u : Nat) :
    closeMem (Room.runStep s m) u ≤
      closeMem s u + (if m = RoomMsg.join u then 1 else 0) := by
  cases m with
  | join v =>
    have hif : (if (RoomMsg.join v = RoomMsg.join u) then (1 : Nat) else 0)
        = (if v = u then (1 : Nat) else 0) := by
      by_cases hvu : v = u
      · simp [hvu]
      · simp [hvu]
    rw [hif]
    by_cases hv : v ∈ s.users
    · simp only [Room.runStep, if_pos hv]
      split <;> omega
    · simp only [Room.runStep, if_neg hv, closeMem, List.count_cons]
      by_cases huv : u = v
      · simp [huv]
        omega
      · have hvu : ¬ v = u := fun h => huv h.symm
        simp [huv, hvu]
  | leave v =>
    have hif : (if (RoomMsg.leave v = RoomMsg.join u) then (1 : Nat) else 0) = 0 := by
      simp
    rw [hif]
    by_cases hv : v ∈ s.users
    · simp only [Room.runStep, if_pos hv, closeMem, List.count_append,
        count_filter_eq, List.count_cons, List.count_nil]
      by_cases huv : u = v
      · subst huv
        simp [hv]
      · have hvu : ¬ v = u := fun h => huv h.symm
        simp [huv, hvu]
    · simp only [Room.runStep, if_neg hv]
      omega
  | broadcast full =>
    have hif : (if (RoomMsg.broadcast full = RoomMsg.join u) then (1 : Nat) else 0) = 0 := by
      simp
    rw [hif]
    by_cases hu : u ∈ full
    · simp only [Room.runStep, closeMem, List.count_append, count_filter_eq]
      simp [hu]
    · simp only [Room.runStep, closeMem, List.count_append, count_filter_eq]
      simp [hu]

theorem runTrace_closeMem (t : List RoomMsg) (u : Nat) (s : RoomState) :
    closeMem (t.foldl Room.runStep s) u ≤ closeMem s u + joinCount t u := by
  induction t generalizing s with
  | nil => simp [joinCount]
  | cons m t ih =>
    have h1 := ih (Room.runStep s m)
    have h2 := runStep_closeMem s m u
    have h3 : joinCount (m :: t) u =
        (if m = RoomMsg.join u then 1 else 0) + joinCount t u := by
      unfold joinCount
      rw [List.filter_cons]
      by_cases hm : m = RoomMsg.join u
      · simp [hm]
        omega
      · simp [hm]
    simp only [List.foldl_cons]
    omega

theorem flatten_queuedChunks (m : List Char) (qs : List (List Char)) :
    List.flatten (m :: queuedChunks qs) = List.intercalate ['\n'] (m :: qs) := by
  induction qs generalizing m with
  | nil => simp [queuedChunks, List.intercalate, List.intersperse]
  | cons q qs ih =>
    have h := ih q
    simp only [queuedChunks, List.flatten_cons] at h ⊢
    rw [List.intercalate, List.intersperse]
    simp only [List.flatten_cons]
    rw [List.intercalate] at h
    rw [← h]
    simp

/-! Claim theorems. -/

/-- Claim C1: for every remote inbound track delivered to the on-track
callback, the engine allocates exactly one new outbound track, it is
tagged Opus (`DefaultPayloadTypeOpus`), its SSRC equals the remote
track's SSRC, and it is stored in the owning user's `Tracks` map keyed
by that same SSRC. -/
theorem C1_onTrack_single_opus_track_published
    (u : UserModel) (remoteSSRC : Nat) (otherUsers : List Nat) :
    (onTrack u remoteSSRC otherUsers).allocated
        = [NewTrack DefaultPayloadTypeOpus remoteSSRC "audio" "pion"]
    ∧ (NewTrack DefaultPayloadTypeOpus remoteSSRC "audio" "pion").payloadType
        = DefaultPayloadTypeOpus
    ∧ (NewTrack DefaultPayloadTypeOpus remoteSSRC "audio" "pion").ssrc = remoteSSRC
    ∧ goMapLookup (onTrack u remoteSSRC otherUsers).tracks remoteSSRC
        = some (NewTrack DefaultPayloadTypeOpus remoteSSRC "audio" "pion") := by
  refine ⟨rfl, rfl, rfl, ?_⟩
  exact goMapLookup_insert u.tracks remoteSSRC _

/-- Claim C2: an inbound offer whose audio codec table has no codec
named "OPUS" is rejected by `HandleOffer` with the error
"remote peer does not support opus codec"; no peer-connection
operation is performed, nothing is sent by the handler itself, and the
reader's task reports the error to the client as an error Event. -/
theorem C2_offer_without_opus_rejected
    (getAudioCodecs : String → List Codec) (randSSRC : Nat)
    (answer offer : SessionDescription)
    (h : ∀ c ∈ getAudioCodecs offer.sdp, c.Name ≠ "OPUS") :
    (HandleOffer getAudioCodecs randSSRC answer offer).retErr
        = some HandleErr.unsupportedCodec
    ∧ (HandleOffer getAudioCodecs randSSRC answer offer).pcActions = []
    ∧ (HandleOffer getAudioCodecs randSSRC answer offer).sent = []
    ∧ (HandleOffer getAudioCodecs randSSRC answer offer).panicked = false
    ∧ clientVisible (HandleOffer getAudioCodecs randSSRC answer offer)
        = [{ etype := "error"
           , Desc := "remote peer does not support opus codec" }] := by
  have h0 : findOpusPayloadType (getAudioCodecs offer.sdp) = 0 :=
    findOpus_eq_zero _ h
  unfold HandleOffer
  rw [h0]
  simp [clientVisible, errMessage]

/-- Witness for C2: a codec table carrying only PCMU. -/
theorem C2_witness :
    (HandleOffer (fun _ => [Codec.mk "PCMU" 0]) 7
        { sdpType := "answer", sdp := "a" } { sdpType := "offer", sdp := "o" }).retErr
      = some HandleErr.unsupportedCodec
    ∧ (HandleOffer (fun _ => [Codec.mk "PCMU" 0]) 7
        { sdpType := "answer", sdp := "a" } { sdpType := "offer", sdp := "o" }).pcActions = []
    ∧ (HandleOffer (fun _ => [Codec.mk "PCMU" 0]) 7
        { sdpType := "answer", sdp := "a" } { sdpType := "offer", sdp := "o" }).sent = []
    ∧ (HandleOffer (fun _ => [Codec.mk "PCMU" 0]) 7
        { sdpType := "answer", sdp := "a" } { sdpType := "offer", sdp := "o" }).panicked = false
    ∧ clientVisible (HandleOffer (fun _ => [Codec.mk "PCMU" 0]) 7
        { sdpType := "answer", sdp := "a" } { sdpType := "offer", sdp := "o" })
        = [{ etype := "error"
           , Desc := "remote peer does not support opus codec" }] := by
  exact C2_offer_without_opus_rejected (fun _ => [Codec.mk "PCMU" 0]) 7
    { sdpType := "answer", sdp := "a" } { sdpType := "offer", sdp := "o" }
    (by intro c hc; simp at hc; subst hc; decide)

/-- The original C10 is refuted when an OPUS entry with payload type 0
is preceded by an OPUS entry with a nonzero payload type: the table
contains an OPUS codec whose payload type is 0, yet the offer is
accepted (no error, peer-connection operations performed). -/
theorem C10_counterexample :
    ([Codec.mk "OPUS" 111, Codec.mk "OPUS" 0].any
        (fun c => decide (c.Name = "OPUS" ∧ c.PayloadType = 0)) = true)
    ∧ (HandleOffer (fun _ => [Codec.mk "OPUS" 111, Codec.mk "OPUS" 0]) 7
        { sdpType := "answer", sdp := "a" } { sdpType := "offer", sdp := "o" }).retErr
        = none
    ∧ ¬ (HandleOffer (fun _ => [Codec.mk "OPUS" 111, Codec.mk "OPUS" 0]) 7
        { sdpType := "answer", sdp := "a" } { sdpType := "offer", sdp := "o" }).pcActions
        = [] := by
  decide

/-- Claim C10 (amended): the scan keys on the first codec named
"OPUS": when that first OPUS codec has payload type 0 (in particular
when it is the only OPUS entry), the offer is rejected with
"remote peer does not support opus codec", payload type 0 doubling as
the absent sentinel; the offer is accepted exactly when the scanned
payload type is nonzero. -/
theorem C10_first_opus_zero_sentinel
    (getAudioCodecs : String → List Codec) (randSSRC : Nat)
    (answer offer : SessionDescription) :
    (∀ c, (getAudioCodecs offer.sdp).find? (fun d => decide (d.Name = "OPUS")) = some c →
       c.PayloadType = 0 →
       (HandleOffer getAudioCodecs randSSRC answer offer).retErr
           = some HandleErr.unsupportedCodec
       ∧ (HandleOffer getAudioCodecs randSSRC answer offer).pcActions = [])
    ∧ ((HandleOffer getAudioCodecs randSSRC answer offer).retErr = none
        ↔ ¬ findOpusPayloadType (getAudioCodecs offer.sdp) = 0) := by
  constructor
  · intro c hfind hzero
    have h0 : findOpusPayloadType (getAudioCodecs offer.sdp) = 0 := by
      rw [findOpus_eq_of_find? _ c hfind, hzero]
    unfold HandleOffer
    rw [h0]
    simp
  · unfold HandleOffer
    by_cases h0 : findOpusPayloadType (getAudioCodecs offer.sdp) = 0
    · rw [h0]
      simp
    · rw [if_neg h0]
      simp [h0]

/-- Witness for C10 (amended): a table whose only OPUS entry has
payload type 0 is rejected. -/
theorem C10_witness :
    (HandleOffer (fun _ => [Codec.mk "OPUS" 0]) 7
        { sdpType := "answer", sdp := "a" } { sdpType := "offer", sdp := "o" }).retErr
        = some HandleErr.unsupportedCodec
    ∧ (HandleOffer (fun _ => [Codec.mk "OPUS" 0]) 7
        { sdpType := "answer", sdp := "a" } { sdpType := "offer", sdp := "o" }).pcActions
        = [] := by
  exact (C10_first_opus_zero_sentinel (fun _ => [Codec.mk "OPUS" 0]) 7
    { sdpType := "answer", sdp := "a" } { sdpType := "offer", sdp := "o" }).1
    (Codec.mk "OPUS" 0) (by decide) rfl

/-- Claim C9: for the frame whose normalized bytes are the JSON value
`null`, the decode succeeds with a nil `*Event`, and the dispatch then
dereferences the nil pointer at `event.Type`: event handling is not
total over well-formed JSON frames. -/
theorem C9_null_frame_nil_dereference
    (getAudioCodecs : String → List Codec) (randSSRC : Nat)
    (answer : SessionDescription) (u : UserModel) :
    unmarshalEvent (normalizeFrame "null") = GoResult.ok none
    ∧ HandleEvent getAudioCodecs randSSRC answer u (normalizeFrame "null")
        = { panicked := true } := by
  have hn : normalizeFrame "null" = "null" := by decide
  have hu : unmarshalEvent "null" = GoResult.ok none := by decide
  refine ⟨by rw [hn]; exact hu, ?_⟩
  rw [hn]
  unfold HandleEvent
  rw [hu]
  rfl

/-- The original C3 is refuted on first-message answers: `serveWs`
constructs the peer connection before the reader starts, so the very
first frame `{"type":"answer","answer":{...}}` does not take the
no-peer-connection branch: the remote description is set (its error
discarded) and the client receives nothing at all. -/
theorem C3_counterexample :
    ¬ (serveWsUser 0).peerConnection = none
    ∧ (HandleEvent (fun _ => []) 0 { sdpType := "", sdp := "" } (serveWsUser 0)
        (normalizeFrame
          "\x7b\"type\":\"answer\",\"answer\":\x7b\"type\":\"answer\",\"sdp\":\"v=0\"\x7d\x7d"))
      = { pcActions := [PCAction.setRemoteDescription { sdpType := "answer", sdp := "v=0" }] }
    ∧ clientVisible (HandleEvent (fun _ => []) 0 { sdpType := "", sdp := "" } (serveWsUser 0)
        (normalizeFrame
          "\x7b\"type\":\"answer\",\"answer\":\x7b\"type\":\"answer\",\"sdp\":\"v=0\"\x7d\x7d"))
      = [] := by
  decide

/-- Claim C3 (amended): an answer event is answered with the
"user has no peer connection" error (reported to the client as an
error Event) precisely when the user's peer connection is nil; but a
user constructed by `serveWs` always carries a peer connection, so a
first-message answer instead has its description applied via
`SetRemoteDescription` (whose error the source discards) with no error
reported. -/
theorem C3_answer_requires_peer_connection
    (getAudioCodecs : String → List Codec) (randSSRC : Nat)
    (answerSD : SessionDescription) (u : UserModel) (e : Event)
    (ans : SessionDescription)
    (hpc : u.peerConnection = none)
    (htype : e.etype = "answer") (hans : e.Answer = some ans) :
    HandleEventDecoded getAudioCodecs randSSRC answerSD u (some e)
        = { retErr := some HandleErr.noPeerConnection }
    ∧ clientVisible (HandleEventDecoded getAudioCodecs randSSRC answerSD u (some e))
        = [{ etype := "error", Desc := "user has no peer connection" }]
    ∧ (∀ pc : Nat, (serveWsUser pc).peerConnection = some pc)
    ∧ (∀ pc : Nat,
        HandleEventDecoded getAudioCodecs randSSRC answerSD (serveWsUser pc) (some e)
          = { pcActions := [PCAction.setRemoteDescription ans] }) := by
  refine ⟨?_, ?_, fun pc => rfl, fun pc => ?_⟩
  · simp [HandleEventDecoded, htype, hans, hpc]
  · simp [HandleEventDecoded, htype, hans, hpc, clientVisible, errMessage]
  · simp [HandleEventDecoded, htype, hans, serveWsUser]

/-- Witness for C3 (amended): a user whose peer connection is nil gets
the error; the `serveWs` user does not. -/
theorem C3_witness :
    HandleEventDecoded (fun _ => []) 0 { sdpType := "", sdp := "" } {}
        (some { etype := "answer"
              , Answer := some { sdpType := "answer", sdp := "v=0" } })
      = { retErr := some HandleErr.noPeerConnection }
    ∧ clientVisible (HandleEventDecoded (fun _ => []) 0 { sdpType := "", sdp := "" } {}
        (some { etype := "answer"
              , Answer := some { sdpType := "answer", sdp := "v=0" } }))
      = [{ etype := "error", Desc := "user has no peer connection" }]
    ∧ (serveWsUser 0).peerConnection = some 0
    ∧ HandleEventDecoded (fun _ => []) 0 { sdpType := "", sdp := "" } (serveWsUser 0)
        (some { etype := "answer"
              , Answer := some { sdpType := "answer", sdp := "v=0" } })
      = { pcActions := [PCAction.setRemoteDescription { sdpType := "answer", sdp := "v=0" }] } := by
  have h := C3_answer_requires_peer_connection (fun _ => []) 0
    { sdpType := "", sdp := "" } {}
    { etype := "answer", Answer := some { sdpType := "answer", sdp := "v=0" } }
    { sdpType := "answer", sdp := "v=0" } rfl rfl rfl
  exact ⟨h.1, h.2.1, h.2.2.1 0, h.2.2.2 0⟩

/-- The original C6 is refuted: a frame whose decode fails is not
fatal to the reader; the iteration reports the decode error to the
client and the loop continues. -/
theorem C6_counterexample :
    unmarshalEvent (normalizeFrame "x") = GoResult.err
    ∧ (readPumpStep (fun _ => []) 0 { sdpType := "", sdp := "" } {}
        (ReadInput.frame "x")).exits = false
    ∧ (readPumpStep (fun _ => []) 0 { sdpType := "", sdp := "" } {}
        (ReadInput.frame "x")).handled
      = some { retErr := some HandleErr.unmarshalErr }
    ∧ clientVisible { retErr := some HandleErr.unmarshalErr }
      = [{ etype := "error", Desc := errMessage HandleErr.unmarshalErr }] := by
  decide

/-- Claim C6 (amended): every inbound frame is whitespace-normalized
(newlines to spaces, then trimmed) and decoded as an Event; a frame
whose decode fails is reported to the client as an error Event and the
reader continues; the reader exits only on a transport read error. -/
theorem C6_reader_survives_malformed_frames
    (getAudioCodecs : String → List Codec) (randSSRC : Nat)
    (answer : SessionDescription) (u : UserModel) (payload : String) :
    (readPumpStep getAudioCodecs randSSRC answer u (.frame payload)).exits = false
    ∧ (readPumpStep getAudioCodecs randSSRC answer u (.frame payload)).handled
        = some (HandleEvent getAudioCodecs randSSRC answer u (normalizeFrame payload))
    ∧ (unmarshalEvent (normalizeFrame payload) = GoResult.err →
        HandleEvent getAudioCodecs randSSRC answer u (normalizeFrame payload)
          = { retErr := some HandleErr.unmarshalErr }
        ∧ clientVisible (HandleEvent getAudioCodecs randSSRC answer u (normalizeFrame payload))
          = [{ etype := "error", Desc := errMessage HandleErr.unmarshalErr }])
    ∧ (readPumpStep getAudioCodecs randSSRC answer u ReadInput.readErr).exits = true := by
  refine ⟨rfl, rfl, ?_, rfl⟩
  intro hdec
  have h1 : HandleEvent getAudioCodecs randSSRC answer u (normalizeFrame payload)
      = { retErr := some HandleErr.unmarshalErr } := by
    unfold HandleEvent
    rw [hdec]
  exact ⟨h1, by rw [h1]; rfl⟩

/-- Witness for C6 (amended) at the malformed frame "x". -/
theorem C6_witness :
    (readPumpStep (fun _ => []) 0 { sdpType := "", sdp := "" } {}
        (ReadInput.frame "x")).exits = false
    ∧ HandleEvent (fun _ => []) 0 { sdpType := "", sdp := "" } {} (normalizeFrame "x")
        = { retErr := some HandleErr.unmarshalErr }
    ∧ (readPumpStep (fun _ => []) 0 { sdpType := "", sdp := "" } {}
        ReadInput.readErr).exits = true := by
  have h := C6_reader_survives_malformed_frames (fun _ => []) 0
    { sdpType := "", sdp := "" } {} "x"
  exact ⟨h.1, (h.2.2.1 (by decide)).1, h.2.2.2⟩

/-- Claim C4: a leave for a member removes it and closes its send
channel; a leave for a non-member is a no-op; and over any whole
lifetime in which the user joins at most once, its channel is closed
at most once — exactly once when a leave finds it a member. -/
theorem C4_leave_removes_and_closes_exactly_once
    (t : List RoomMsg) (u : Nat) :
    (u ∈ (Room.runTrace t).users →
        ¬ u ∈ (Room.runStep (Room.runTrace t) (RoomMsg.leave u)).users
        ∧ (Room.runStep (Room.runTrace t) (RoomMsg.leave u)).closes
            = (Room.runTrace t).closes ++ [u])
    ∧ (¬ u ∈ (Room.runTrace t).users →
        Room.runStep (Room.runTrace t) (RoomMsg.leave u) = Room.runTrace t)
    ∧ (joinCount t u ≤ 1 → (Room.runTrace t).closes.count u ≤ 1)
    ∧ (joinCount t u ≤ 1 → u ∈ (Room.runTrace t).users →
        (Room.runTrace (t ++ [RoomMsg.leave u])).closes.count u = 1) := by
  have hbound := runTrace_closeMem t u {}
  have hzero : closeMem {} u = 0 := rfl
  refine ⟨?_, ?_, ?_, ?_⟩
  · intro hu
    constructor
    · simp [Room.runStep, hu, List.mem_filter]
    · simp [Room.runStep, hu]
  · intro hu
    simp [Room.runStep, hu]
  · intro hj
    have hcm : closeMem (Room.runTrace t) u ≤ joinCount t u := by
      simpa [Room.runTrace, hzero] using hbound
    unfold closeMem at hcm
    omega
  · intro hj hu
    have happ : Room.runTrace (t ++ [RoomMsg.leave u])
        = Room.runStep (Room.runTrace t) (RoomMsg.leave u) := by
      simp [Room.runTrace, List.foldl_append]
    have hcl : (Room.runStep (Room.runTrace t) (RoomMsg.leave u)).closes
        = (Room.runTrace t).closes ++ [u] := by
      simp [Room.runStep, hu]
    have hjapp : joinCount (t ++ [RoomMsg.leave u]) u = joinCount t u := by
      unfold joinCount
      simp [List.filter_append]
    have hcount : (Room.runTrace (t ++ [RoomMsg.leave u])).closes.count u
        = (Room.runTrace t).closes.count u + 1 := by
      rw [happ, hcl]
      simp [List.count_append]
    have hb2 := runTrace_closeMem (t ++ [RoomMsg.leave u]) u {}
    have hle : closeMem (Room.runTrace (t ++ [RoomMsg.leave u])) u ≤ joinCount t u := by
      rw [← hjapp]
      simpa [Room.runTrace, hzero] using hb2
    unfold closeMem at hle
    omega

/-- Witness for C4: one join of user 5 then its leave; plus a no-op
leave on a room that only ever saw user 6. -/
theorem C4_witness :
    ¬ 5 ∈ (Room.runStep (Room.runTrace [RoomMsg.join 5]) (RoomMsg.leave 5)).users
    ∧ (Room.runStep (Room.runTrace [RoomMsg.join 5]) (RoomMsg.leave 5)).closes
        = (Room.runTrace [RoomMsg.join 5]).closes ++ [5]
    ∧ (Room.runTrace [RoomMsg.join 5]).closes.count 5 ≤ 1
    ∧ (Room.runTrace ([RoomMsg.join 5] ++ [RoomMsg.leave 5])).closes.count 5 = 1
    ∧ Room.runStep (Room.runTrace [RoomMsg.join 6]) (RoomMsg.leave 5)
        = Room.runTrace [RoomMsg.join 6] := by
  have h := C4_leave_removes_and_closes_exactly_once [RoomMsg.join 5] 5
  have h2 := C4_leave_removes_and_closes_exactly_once [RoomMsg.join 6] 5
  exact ⟨(h.1 (by decide)).1, (h.1 (by decide)).2, h.2.2.1 (by decide),
    h.2.2.2 (by decide) (by decide), h2.2.1 (by decide)⟩

/-- The original C5 is refuted by the `GetOrCreate` iteration at
part_002:87-95: on the empty registry, `get_or_create("a")` creates
room 0 but does not register it, so `get("a")` still misses and a
second `get_or_create("a")` creates (and starts) a second room. -/
theorem C5_counterexample :
    (Rooms.GetOrCreateV2 {} "a").2 = 0
    ∧ Rooms.Get (Rooms.GetOrCreateV2 {} "a").1.rooms "a" = none
    ∧ (Rooms.GetOrCreateV2 (Rooms.GetOrCreateV2 {} "a").1 "a").2 = 1
    ∧ (Rooms.GetOrCreateV2 (Rooms.GetOrCreateV2 {} "a").1 "a").1.started = [0, 1] := by
  decide

/-- Claim C5 (amended): for the registry in part_001, `GetOrCreate`
returns the registered room when one exists, and otherwise creates a
room, registers it, and starts its coordinator; a repeated call then
returns the same room without creating another. (The iteration in
part_002 lacks the registration — see the counterexample.) -/
theorem C5_getOrCreate_registers_once
    (st : RegState) (roomID : String) :
    (∀ r0, Rooms.Get st.rooms roomID = some r0 →
        Rooms.GetOrCreate st roomID = (st, r0))
    ∧ (Rooms.Get st.rooms roomID = none →
        Rooms.Get (Rooms.GetOrCreate st roomID).1.rooms roomID
            = some (Rooms.GetOrCreate st roomID).2
        ∧ (Rooms.GetOrCreate st roomID).2 = st.nextRoom
        ∧ (Rooms.GetOrCreate st roomID).1.started
            = st.started ++ [(Rooms.GetOrCreate st roomID).2])
    ∧ Rooms.GetOrCreate (Rooms.GetOrCreate st roomID).1 roomID
        = ((Rooms.GetOrCreate st roomID).1, (Rooms.GetOrCreate st roomID).2) := by
  cases hget : Rooms.Get st.rooms roomID with
  | some r0 =>
    have heq : Rooms.GetOrCreate st roomID = (st, r0) := by
      unfold Rooms.GetOrCreate
      rw [hget]
    refine ⟨?_, ?_, ?_⟩
    · intro r1 h1
      injection h1 with h1
      subst h1
      exact heq
    · intro h
      exact Option.noConfusion h
    · rw [heq]
      show Rooms.GetOrCreate st roomID = (st, r0)
      exact heq
  | none =>
    have hany : st.rooms.any (fun p => decide (p.1 = roomID)) = false :=
      get_none_any_false st.rooms roomID hget
    have heq : Rooms.GetOrCreate st roomID
        = ({ rooms := (roomID, st.nextRoom) :: st.rooms
           , nextRoom := st.nextRoom + 1
           , started := st.started ++ [st.nextRoom] }, st.nextRoom) := by
      unfold Rooms.GetOrCreate
      rw [hget]
      unfold Rooms.AddRoom
      simp [hany]
    have hget2 : Rooms.Get ((roomID, st.nextRoom) :: st.rooms) roomID
        = some st.nextRoom := by
      unfold Rooms.Get
      rw [List.find?_cons_of_pos _ (by simp)]
      rfl
    refine ⟨?_, ?_, ?_⟩
    · intro r1 h1
      exact Option.noConfusion h1
    · intro _
      rw [heq]
      exact ⟨hget2, rfl, rfl⟩
    · rw [heq]
      show Rooms.GetOrCreate
          { rooms := (roomID, st.nextRoom) :: st.rooms
          , nextRoom := st.nextRoom + 1
          , started := st.started ++ [st.nextRoom] } roomID
        = ({ rooms := (roomID, st.nextRoom) :: st.rooms
           , nextRoom := st.nextRoom + 1
           , started := st.started ++ [st.nextRoom] }, st.nextRoom)
      unfold Rooms.GetOrCreate
      rw [show Rooms.Get
          ({ rooms := (roomID, st.nextRoom) :: st.rooms
           , nextRoom := st.nextRoom + 1
           , started := st.started ++ [st.nextRoom] } : RegState).rooms roomID
          = some st.nextRoom from hget2]

/-- Witness for C5 (amended): a miss on the empty registry and a hit
on a one-entry registry. -/
theorem C5_witness :
    Rooms.Get (Rooms.GetOrCreate {} "a").1.rooms "a"
        = some (Rooms.GetOrCreate {} "a").2
    ∧ (Rooms.GetOrCreate {} "a").2 = ({} : RegState).nextRoom
    ∧ (Rooms.GetOrCreate {} "a").1.started
        = ({} : RegState).started ++ [(Rooms.GetOrCreate {} "a").2]
    ∧ Rooms.GetOrCreate (Rooms.GetOrCreate {} "a").1 "a"
        = ((Rooms.GetOrCreate {} "a").1, (Rooms.GetOrCreate {} "a").2)
    ∧ Rooms.GetOrCreate { rooms := [("b", 9)] } "b" = ({ rooms := [("b", 9)] }, 9) := by
  have h := C5_getOrCreate_registers_once {} "a"
  have h2 := C5_getOrCreate_registers_once { rooms := [("b", 9)] } "b"
  exact ⟨(h.2.1 rfl).1, (h.2.1 rfl).2.1, (h.2.1 rfl).2.2, h.2.2,
    h2.1 9 (by decide)⟩

/-- Claim C7: a dequeued message and the n messages queued behind it
are written as one transport text message, newline-separated, in queue
order; a closed queue makes the writer send a close frame and exit. -/
theorem C7_writer_coalesces_and_closes
    (message : List Char) (queued : List (List Char)) :
    writePumpStep (WriterInput.msg message queued)
        = (TransportOut.text (List.intercalate ['\n'] (message :: queued)), false)
    ∧ writePumpStep WriterInput.queueClosed = (TransportOut.closeFrame, true) := by
  refine ⟨?_, rfl⟩
  rw [show writePumpStep (WriterInput.msg message queued)
      = (TransportOut.text (List.flatten (message :: queuedChunks queued)), false)
    from rfl]
  rw [flatten_queuedChunks]

/-- Claim C8: `RemoveRoom` never returns an error, is a no-op when the
id is absent, leaves `Get` reporting NotFound, and is idempotent. -/
theorem C8_removeRoom_idempotent_no_error
    (r : RoomsMap) (roomID : String) :
    (Rooms.RemoveRoom r roomID).2 = none
    ∧ (r.any (fun p => decide (p.1 = roomID)) = false →
        Rooms.RemoveRoom r roomID = (r, none))
    ∧ Rooms.Get (Rooms.RemoveRoom r roomID).1 roomID = none
    ∧ Rooms.RemoveRoom (Rooms.RemoveRoom r roomID).1 roomID
        = Rooms.RemoveRoom r roomID := by
  by_cases h : r.any (fun p => decide (p.1 = roomID)) = true
  · have heq : Rooms.RemoveRoom r roomID
        = (r.filter (fun p => decide (¬ p.1 = roomID)), none) := by
      unfold Rooms.RemoveRoom
      rw [if_pos h]
    refine ⟨by rw [heq], ?_, ?_, ?_⟩
    · intro hfalse
      rw [hfalse] at h
      exact Bool.noConfusion h
    · rw [heq]
      exact get_filter_ne_none r roomID
    · rw [heq]
      have h2 : ¬ ((r.filter (fun p => decide (¬ p.1 = roomID))).any
          (fun p => decide (p.1 = roomID)) = true) := by
        rw [any_filter_ne_false r roomID]
        exact Bool.noConfusion
      unfold Rooms.RemoveRoom
      rw [if_neg h2]
  · have heq : Rooms.RemoveRoom r roomID = (r, none) := by
      unfold Rooms.RemoveRoom
      rw [if_neg h]
    refine ⟨by rw [heq], fun _ => heq, ?_, ?_⟩
    · rw [heq]
      unfold Rooms.Get
      have hf : r.find? (fun p => decide (p.1 = roomID)) = none := by
        rw [List.find?_eq_none]
        intro x hx hpx
        exact h (List.any_eq_true.mpr ⟨x, hx, hpx⟩)
      rw [hf]
      rfl
    · rw [heq]
      exact heq

/-- Witness for C8: removal of an absent id and a present id on a
one-entry registry. -/
theorem C8_witness :
    Rooms.RemoveRoom [("a", 1)] "b" = ([("a", 1)], none)
    ∧ Rooms.Get (Rooms.RemoveRoom [("a", 1)] "a").1 "a" = none
    ∧ Rooms.RemoveRoom (Rooms.RemoveRoom [("a", 1)] "a").1 "a"
        = Rooms.RemoveRoom [("a", 1)] "a" := by
  have h1 := C8_removeRoom_idempotent_no_error [("a", 1)] "b"
  have h2 := C8_removeRoom_idempotent_no_error [("a", 1)] "a"
  exact ⟨h1.2.1 (by decide), h2.2.2.1, h2.2.2.2⟩
